import Mathlib

/-!
Verification of the foxess_modbus integration sources against its specification.

The Python sources are shallowly embedded: dictionaries become association
lists over a `Value` type, in-place mutation becomes explicit state passing,
and exceptions become `Option`/`Except` results.  String constants from
`const.py` (which only declares names) are modelled as distinct string values.
-/

namespace FoxessModbus

/-! ## Constants (from `const.py`; modelled as distinct opaque strings) -/

def TCP : String := "TCP"
def UDP : String := "UDP"
def SERIAL : String := "SERIAL"
def MODBUS_TYPE : String := "modbus_type"
def HOST : String := "modbus_host"
def MODBUS_SLAVE : String := "modbus_slave"
def ADAPTER_ID : String := "adapter_id"
def POLL_RATE : String := "poll_rate"
def MAX_READ : String := "max_read"
def FRIENDLY_NAME : String := "friendly_name"
def INVERTER_CONN : String := "inverter_conn"
def INVETER_ADAPTER_NEEDS_MANUAL_INPUT : String := "adapter_needs_manual_input"

/-! ## Python dictionaries as association lists -/

/-- A Python value stored in a configuration dictionary. -/
inductive Value where
  | s (v : String)
  | n (v : Int)
  | b (v : Bool)
deriving DecidableEq

/-- A Python `dict` with string keys, in insertion order. -/
abbrev Dict := List (String × Value)

/-- First-match lookup in an association list (our dicts keep keys unique). -/
def assocLookup {α β : Type} [DecidableEq α] : List (α × β) → α → Option β
  | [], _ => none
  | (k', v) :: rest, k => if k' = k then some v else assocLookup rest k

/-- `d[k]` on a dictionary. -/
def getKey (d : Dict) (k : String) : Option Value :=
  assocLookup d k

/-- `d[k] = v`: replace the value in place, or append a new key at the end
(Python dict assignment semantics). -/
def setKey : Dict → String → Value → Dict
  | [], k, v => [(k, v)]
  | (k', v') :: rest, k, v =>
      if k' = k then (k', v) :: rest else (k', v') :: setKey rest k v

/-- `d.update(u)`: assign every key of `u` into `d`, in order. -/
def dictUpdate (d : Dict) (u : Dict) : Dict :=
  u.foldl (fun acc kv => setKey acc kv.1 kv.2) d

/-! ## Validators (`entities/validation.py`)

The numeric data validated is modelled over `ℚ` (Python floats compared with
`>=`/`<=`; the order-theoretic behaviour is what the code relies on). -/

/-- `Range(min_value, max_value)` validator. -/
structure Range where
  min_value : ℚ
  max_value : ℚ

/-- `Range.validate`: `data >= self._min and data <= self._max`. -/
def Range.validate (r : Range) (data : ℚ) : Bool :=
  decide (data ≥ r.min_value) && decide (data ≤ r.max_value)

/-- `Min(min_value)` validator. -/
structure Min where
  min_value : ℚ

/-- `Min.validate`: `data >= self._min`. -/
def Min.validate (m : Min) (data : ℚ) : Bool :=
  decide (data ≥ m.min_value)

/-- `Max(max_value)` validator. -/
structure Max where
  max_value : ℚ

/-- `Max.validate`: `data <= self._max`. -/
def Max.validate (m : Max) (data : ℚ) : Bool :=
  decide (data ≤ m.max_value)

/-! ## Config flow (`config_flow.py`)

`ModbusFlowHandler._autodetect_modbus_and_save_to_inverter_data` is embedded
with mutation as explicit state passing.  `ModbusController.autodetect` (not
among the provided sources) is an oracle parameter `detect`: its outcome — a
`(base_model, full_model)` pair, an `UnsupportedInverterException`, or a
`ConnectionException` — is the only thing the flow observes. -/

/-- The `InverterData` dataclass: data gathered on one inverter during the
flow.  Adapter objects are represented by their `adapter_id`. -/
structure InverterData where
  adapter_type : Option String := none
  adapter : Option String := none
  inverter_base_model : Option String := none
  inverter_model : Option String := none
  modbus_slave : Option Int := none
  inverter_protocol : Option String := none
  host : Option String := none
  friendly_name : Option String := none
deriving DecidableEq

/-- The flow handler state touched by autodetection: `self._inverter_data`
and `self._all_inverters`. -/
structure FlowState where
  inverter_data : InverterData
  all_inverters : List InverterData
deriving DecidableEq

/-- The outcome of one `ModbusController.autodetect` call, as observed by the
flow's `try` block. -/
inductive AutodetectResult where
  | success (base_model full_model : String)
  | unsupportedInverter
  | connectionError
deriving DecidableEq

/-- Result of one `_autodetect_modbus_and_save_to_inverter_data` call: the
flow state after the call, the `ValidationFailedException` errors dict if one
was raised, and how many times `ModbusController.autodetect` was invoked. -/
structure AutodetectOutcome where
  state : FlowState
  error : Option (List (String × String))
  autodetect_calls : Nat
deriving DecidableEq

/-- The duplicate-connection check opening
`_autodetect_modbus_and_save_to_inverter_data`. -/
def duplicateConnection (st : FlowState) (protocol host : String) (slave : Int) : Bool :=
  st.all_inverters.any fun x =>
    decide (x.inverter_protocol = some protocol ∧ x.host = some host ∧
      x.modbus_slave = some slave)

/-- `str.split(":")` at the character level (executable, unlike
`String.splitOn` whose implementation does not reduce in the kernel). -/
def splitColonAux : List Char → List Char → List (List Char)
  | [], acc => [acc.reverse]
  | c :: rest, acc =>
      if c = ':' then acc.reverse :: splitColonAux rest []
      else splitColonAux rest (c :: acc)

/-- `host.split(":")`. -/
def splitColon (host : String) : List String :=
  (splitColonAux host.data []).map fun l => String.mk l

/-- `int(text)` on a decimal literal with an optional sign; `none` models the
`ValueError` Python raises otherwise. -/
def parseIntChars : List Char → Option Int
  | [] => none
  | '-' :: rest =>
      if rest ≠ [] ∧ rest.all Char.isDigit then
        some (-(rest.foldl (fun acc c => acc * 10 + (c.toNat - 48)) 0 : Int))
      else none
  | l =>
      if l.all Char.isDigit then
        some (l.foldl (fun acc c => acc * 10 + (c.toNat - 48)) 0 : Int)
      else none

/-- `int(host.split(":")[1])`: the port parsed out of a `host:port` string;
`none` models the uncaught `IndexError`/`ValueError`. -/
def parsePort (host : String) : Option Int :=
  ((splitColon host).get? 1).bind fun p => parseIntChars p.data

/-- The `try` block after the connection-details check: run autodetection and,
on success, save base model, full model, protocol, slave and host into
`self._inverter_data`. -/
def runDetect (st : FlowState) (protocol host : String) (slave : Int)
    (detect : AutodetectResult) : AutodetectOutcome :=
  match detect with
  | .success base_model full_model =>
      ⟨{ st with inverter_data :=
          { st.inverter_data with
              inverter_base_model := some base_model
              inverter_model := some full_model
              inverter_protocol := some protocol
              modbus_slave := some slave
              host := some host } }, none, 1⟩
  | .unsupportedInverter => ⟨st, some [("base", "modbus_model_not_supported")], 1⟩
  | .connectionError => ⟨st, some [("base", "modbus_error")], 1⟩

/-- `_autodetect_modbus_and_save_to_inverter_data`.  `none` models a crash of
the flow (unparsable `host:port`, or the `assert False` on an unknown
protocol); otherwise the outcome carries the state, any validation error, and
the number of autodetect calls made. -/
def autodetectModbusAndSaveToInverterData (st : FlowState) (protocol host : String)
    (slave : Int) (detect : AutodetectResult) : Option AutodetectOutcome :=
  if duplicateConnection st protocol host slave then
    some ⟨st, some [("base", "duplicate_connection_details")], 0⟩
  else if protocol = TCP ∨ protocol = UDP then
    match parsePort host with
    | none => none
    | some _ => some (runDetect st protocol host slave detect)
  else if protocol = SERIAL then
    some (runDetect st protocol host slave detect)
  else
    none

/-- The protocols with which the flow invokes autodetection, with a host
string the client construction can consume. -/
def protocolReachable (protocol host : String) : Prop :=
  protocol = SERIAL ∨ ((protocol = TCP ∨ protocol = UDP) ∧ (parsePort host).isSome)

/-- A concrete already-gathered inverter, for the duplicate-connection
witness. -/
def sampleGathered : InverterData :=
  { inverter_protocol := some SERIAL, host := some "/dev/ttyUSB0",
    modbus_slave := some 247 }

/-! ## Entry setup (`__init__.py`, `async_setup_entry`)

The per-entry setup loop is embedded with the mutable `clients` cache, the
fresh `ModbusClient` constructions, and the `inverter_controllers` list as
explicit state.  A constructed client is identified by a sequence number;
the params dict it was constructed from is recorded alongside.  `none`
models an uncaught exception (missing key, unparsable `host:port`). -/

/-- `host.split(":")[0]`. -/
def hostHead (host : String) : String :=
  (splitColon host).headD ""

/-- The `params` dict a `ModbusClient` is constructed from, given the
inverter's `MODBUS_TYPE` and `HOST` values: `{MODBUS_TYPE: t}` updated with
host/port for TCP/UDP, or with the device path and `baudrate: 9600` for the
serial branch. -/
def mkClientParams (tv hv : Value) : Option Dict :=
  if tv = Value.s TCP ∨ tv = Value.s UDP then
    match hv with
    | Value.s host =>
        (parsePort host).map fun port =>
          dictUpdate [(MODBUS_TYPE, tv)]
            [("host", Value.s (hostHead host)), ("port", Value.n port)]
    | _ => none
  else
    some (dictUpdate [(MODBUS_TYPE, tv)] [("port", hv), ("baudrate", Value.n 9600)])

/-- The two `inverter.update(...)` calls at the top of the setup loop: merge
in the adapter's `inverter_config()` (looked up by the inverter's
`ADAPTER_ID`), then the per-inverter entry options, if any.  (Python's
`if options:` skips a falsy empty dict; updating with an empty dict is the
identity, so both readings coincide.) -/
def mergeInverterConfig (adapters : Value → Option Dict) (options : String → Option Dict)
    (iid : String) (inv : Dict) : Option Dict :=
  (getKey inv ADAPTER_ID).bind fun av =>
    (adapters av).map fun acfg =>
      let inv1 := dictUpdate inv acfg
      match options iid with
      | some opts => dictUpdate inv1 opts
      | none => inv1

/-- State threaded through the setup loop: the `{(modbus_type, host): client}`
cache, the params each constructed client got, the next fresh client id, and
the `inverter_controllers` list as (merged inverter dict, client id) pairs. -/
structure SetupState where
  clients : List ((Value × Value) × Nat)
  clientParams : List (Nat × Dict)
  nextClientId : Nat
  controllers : List (Dict × Nat)
deriving DecidableEq

/-- The state before the loop. -/
def initSetupState : SetupState := ⟨[], [], 0, []⟩

/-- One iteration of the setup loop for inverter `(iid, inv)`: merge the
configs, compute the `(modbus_type, host)` client key, fetch the cached
client or construct (and cache) a fresh one, and append the controller. -/
def setupInverter (adapters : Value → Option Dict) (options : String → Option Dict)
    (st : SetupState) (iid : String) (inv : Dict) : Option SetupState :=
  (mergeInverterConfig adapters options iid inv).bind fun merged =>
  (getKey merged MODBUS_TYPE).bind fun tv =>
  (getKey merged HOST).bind fun hv =>
  match assocLookup st.clients (tv, hv) with
  | some cid => some { st with controllers := st.controllers ++ [(merged, cid)] }
  | none =>
      (mkClientParams tv hv).map fun params =>
        ⟨st.clients ++ [((tv, hv), st.nextClientId)],
         st.clientParams ++ [(st.nextClientId, params)],
         st.nextClientId + 1,
         st.controllers ++ [(merged, st.nextClientId)]⟩

/-- The whole setup loop over `entry.data[INVERTERS].items()`. -/
def setupInverters (adapters : Value → Option Dict) (options : String → Option Dict) :
    List (String × Dict) → SetupState → Option SetupState
  | [], st => some st
  | (iid, inv) :: rest, st =>
      (setupInverter adapters options st iid inv).bind
        (setupInverters adapters options rest)

/-! ### C5: the setup loop mutates the stored inverter configuration -/

/-- Adapter catalog for the concrete counterexample: adapter `"direct"`
contributes `{MAX_READ: 8}` as its `inverter_config()`. -/
def adaptersT : Value → Option Dict := fun v =>
  if v = Value.s "direct" then some [(MAX_READ, Value.n 8)] else none

/-- No per-inverter entry options. -/
def optionsT : String → Option Dict := fun _ => none

/-- A stored serial inverter configuration before setup. -/
def invT : Dict :=
  [(ADAPTER_ID, Value.s "direct"), (MODBUS_TYPE, Value.s SERIAL),
   (HOST, Value.s "/dev/ttyUSB0")]

/-! ### The setup loop invariant -/

/-- Invariant of the setup loop state: the client cache has one entry per
key, client ids are distinct and fresh, every controller's client id is the
cache entry for its inverter's `(modbus_type, host)` key, and every
constructed client's params came from `mkClientParams`. -/
structure SetupInv (st : SetupState) : Prop where
  keysNodup : (st.clients.map Prod.fst).Nodup
  idsNodup : (st.clients.map Prod.snd).Nodup
  idsLt : ∀ c ∈ st.clients, c.2 < st.nextClientId
  ctrl : ∀ e ∈ st.controllers, ∃ tv hv, getKey e.1 MODBUS_TYPE = some tv ∧
    getKey e.1 HOST = some hv ∧ assocLookup st.clients (tv, hv) = some e.2
  cparams : ∀ p ∈ st.clientParams, ∃ tv hv, mkClientParams tv hv = some p.2

/-- The params of the client constructed for `invT`. -/
def paramsT : Dict :=
  [(MODBUS_TYPE, Value.s SERIAL), ("port", Value.s "/dev/ttyUSB0"),
   ("baudrate", Value.n 9600)]

/-- `invT` after the setup-loop merges. -/
def mergedT : Dict := invT ++ [(MAX_READ, Value.n 8)]

/-- The setup state after two inverters sharing one serial connection. -/
def stC : SetupState :=
  ⟨[((Value.s SERIAL, Value.s "/dev/ttyUSB0"), 0)], [(0, paramsT)], 1,
   [(mergedT, 0), (mergedT, 0)]⟩

/-! ### C6: serial clients get a hardcoded baud rate of 9600 -/

/-- A stored serial inverter configuration that carries a baud-rate setting
of 115200. -/
def invBaud : Dict :=
  [(ADAPTER_ID, Value.s "direct"), (MODBUS_TYPE, Value.s SERIAL),
   (HOST, Value.s "/dev/ttyUSB0"), ("baudrate", Value.n 115200)]

/-- The setup state after `invBaud` alone. -/
def stB : SetupState :=
  ⟨[((Value.s SERIAL, Value.s "/dev/ttyUSB0"), 0)], [(0, paramsT)], 1,
   [(invBaud ++ [(MAX_READ, Value.n 8)], 0)]⟩

/-! ## Config entry migration (`__init__.py`, `async_migrate_entry`)

The version-1 → version-2 migration iterates over the entry's data keyed by
modbus type, host and friendly name.  The function-scoped Python local
`adapter` is threaded as an `Option String` (`none` = not yet assigned);
reading it while unassigned is Python's `UnboundLocalError`. -/

/-- An uncaught exception raised inside the migration loop. -/
inductive MigrateError where
  | unboundLocalAdapter
  | keyErrorInverterConn
deriving DecidableEq

/-- The three field assignments opening each migration iteration
(`MODBUS_TYPE`, `HOST`, `FRIENDLY_NAME`, with `"null"` mapped to `""`). -/
def migrateSetFields (modbus_type host friendly_name0 : String) (inv : Dict) : Dict :=
  setKey (setKey (setKey inv MODBUS_TYPE (Value.s modbus_type)) HOST (Value.s host))
    FRIENDLY_NAME (Value.s (if friendly_name0 = "null" then "" else friendly_name0))

/-- The adapter-inference branch: assigns `adapter` in the TCP branch (LAN →
`direct`, else `usr_w610`) and the SERIAL branch (`serial_other`); any other
modbus type leaves the local untouched. -/
def migrateAdapterFor (adapter : Option String) (modbus_type : String) (inv3 : Dict) :
    Except MigrateError (Option String) :=
  if modbus_type = TCP then
    match getKey inv3 INVERTER_CONN with
    | some v =>
        Except.ok (some (if v = Value.s "LAN" then "direct" else "usr_w610"))
    | none => Except.error MigrateError.keyErrorInverterConn
  else if modbus_type = SERIAL then Except.ok (some "serial_other")
  else Except.ok adapter

/-- The tail of a migration iteration once `adapter` resolved to `a`: store
`ADAPTER_ID`, and set the needs-manual-input flag unless this is a TCP LAN
connection. -/
def migrateFinish (modbus_type : String) (inv3 : Dict) (a : String) : Dict :=
  if modbus_type = TCP then
    if getKey (setKey inv3 ADAPTER_ID (Value.s a)) INVERTER_CONN
        = some (Value.s "LAN") then
      setKey inv3 ADAPTER_ID (Value.s a)
    else
      setKey (setKey inv3 ADAPTER_ID (Value.s a))
        INVETER_ADAPTER_NEEDS_MANUAL_INPUT (Value.b true)
  else
    setKey (setKey inv3 ADAPTER_ID (Value.s a))
      INVETER_ADAPTER_NEEDS_MANUAL_INPUT (Value.b true)

/-- One iteration of the migration loop body, returning the migrated inverter
dict and the new value of the `adapter` local. -/
def migrateInverter (adapter : Option String) (modbus_type host friendly_name0 : String)
    (inv : Dict) : Except MigrateError (Dict × Option String) :=
  match migrateAdapterFor adapter modbus_type
      (migrateSetFields modbus_type host friendly_name0 inv) with
  | Except.error e => Except.error e
  | Except.ok none => Except.error MigrateError.unboundLocalAdapter
  | Except.ok (some a) =>
      Except.ok
        (migrateFinish modbus_type
          (migrateSetFields modbus_type host friendly_name0 inv) a, some a)

/-- The migration loop over the flattened `(modbus_type, host, friendly_name,
inverter)` iteration, skipping entry keys that are not a modbus type, with
the `adapter` local threaded across iterations. -/
def migrateInverters (adapter : Option String) :
    List (String × String × String × Dict) → Except MigrateError (List Dict)
  | [] => Except.ok []
  | (modbus_type, host, friendly_name, inv) :: rest =>
      if modbus_type = TCP ∨ modbus_type = UDP ∨ modbus_type = SERIAL then
        match migrateInverter adapter modbus_type host friendly_name inv with
        | Except.error e => Except.error e
        | Except.ok (inv', adapter') =>
            match migrateInverters adapter' rest with
            | Except.error e => Except.error e
            | Except.ok invs => Except.ok (inv' :: invs)
      else migrateInverters adapter rest

/-! ## Range Planner (spec §4.2) -/

/-- Modelled from the spec: the Range Planner of the Modbus controller is not
among the provided sources.  Following §4.2's greedy algorithm with register
width 1: extend the current range while `next_address - range_end <=
allowed_gap` and `next_address - range_start + register_width < max_span`,
otherwise close the current range and start a new one.  `start`/`stop`
delimit the range under construction. -/
def planAux (gap maxSpan : Nat) : Nat → Nat → List Nat → List (Nat × Nat)
  | start, stop, [] => [(start, stop - start + 1)]
  | start, stop, a :: rest =>
      if a - stop ≤ gap ∧ a - start + 1 < maxSpan then
        planAux gap maxSpan start a rest
      else
        (start, stop - start + 1) :: planAux gap maxSpan a a rest

/-- Modelled from the spec: `plan(addresses, max_span)` over a sorted address
set, producing `ReadPlanRange`s as `(start_address, count)` pairs. -/
def plan (addresses : List Nat) (maxSpan gap : Nat) : List (Nat × Nat) :=
  match addresses with
  | [] => []
  | a :: rest => planAux gap maxSpan a a rest

/-- A `ReadPlanRange` `(start, count)` covers address `a`. -/
def rangeCovers (r : Nat × Nat) (a : Nat) : Prop :=
  r.1 ≤ a ∧ a < r.1 + r.2

instance rangeCoversDecidable (r : Nat × Nat) (a : Nat) :
    Decidable (rangeCovers r a) :=
  inferInstanceAs (Decidable (r.1 ≤ a ∧ a < r.1 + r.2))

/-- C8: `Range(min, max).validate d` agrees with the conjunction of
`Min(min).validate d` and `Max(max).validate d`, and all three validators
treat their bounds inclusively. -/
theorem range_validate_eq_min_and_max (mn mx d : ℚ) :
    (Range.validate ⟨mn, mx⟩ d = (Min.validate ⟨mn⟩ d && Max.validate ⟨mx⟩ d)) ∧
    Min.validate ⟨mn⟩ mn = true ∧
    Max.validate ⟨mx⟩ mx = true ∧
    (mn ≤ mx → Range.validate ⟨mn, mx⟩ mn = true ∧ Range.validate ⟨mn, mx⟩ mx = true) := by
  refine ⟨rfl, by simp [Min.validate], by simp [Max.validate], fun h => ?_⟩
  constructor <;> simp [Range.validate, h]

/-- Witness for `range_validate_eq_min_and_max` at `min = 0`, `max = 1`. -/
theorem range_validate_eq_min_and_max_witness :
    (0 : ℚ) ≤ 1 ∧ Range.validate ⟨0, 1⟩ 0 = true ∧ Range.validate ⟨0, 1⟩ 1 = true := by
  have h := (range_validate_eq_min_and_max 0 1 0).2.2.2 (by norm_num)
  exact ⟨by norm_num, h.1, h.2⟩

/-- Helper: with no duplicate and a reachable protocol, the call reduces to
the `try` block. -/
theorem autodetect_eq_runDetect (st : FlowState) (protocol host : String)
    (slave : Int) (detect : AutodetectResult)
    (hdup : duplicateConnection st protocol host slave = false)
    (hok : protocolReachable protocol host) :
    autodetectModbusAndSaveToInverterData st protocol host slave detect
      = some (runDetect st protocol host slave detect) := by
  rcases hok with h | ⟨h, hp⟩
  · subst h
    have h1 : ¬(SERIAL = TCP ∨ SERIAL = UDP) := by decide
    simp [autodetectModbusAndSaveToInverterData, hdup, h1]
  · rcases hps : parsePort host with _ | p
    · rw [hps] at hp; simp at hp
    · rcases h with h | h <;> subst h <;>
        simp [autodetectModbusAndSaveToInverterData, hdup, hps]

/-- C3: when autodetection raises `UnsupportedInverterException`, the flow
surfaces the validation error `modbus_model_not_supported` after a single
autodetect call (no retry), and the flow state — in particular every gathered
inverter-data field — is unchanged. -/
theorem autodetect_unsupported_surfaces_error (st : FlowState) (protocol host : String)
    (slave : Int)
    (hdup : duplicateConnection st protocol host slave = false)
    (hok : protocolReachable protocol host) :
    autodetectModbusAndSaveToInverterData st protocol host slave .unsupportedInverter
      = some ⟨st, some [("base", "modbus_model_not_supported")], 1⟩ :=
  autodetect_eq_runDetect st protocol host slave .unsupportedInverter hdup hok

/-- Witness for `autodetect_unsupported_surfaces_error` on a fresh flow state
and a serial connection. -/
theorem autodetect_unsupported_surfaces_error_witness :
    duplicateConnection ⟨{}, []⟩ SERIAL "/dev/ttyUSB0" 247 = false ∧
    autodetectModbusAndSaveToInverterData ⟨{}, []⟩ SERIAL "/dev/ttyUSB0" 247
        .unsupportedInverter
      = some ⟨⟨{}, []⟩, some [("base", "modbus_model_not_supported")], 1⟩ :=
  ⟨rfl, autodetect_unsupported_surfaces_error ⟨{}, []⟩ SERIAL "/dev/ttyUSB0" 247 rfl
    (Or.inl rfl)⟩

/-- C4: on success, autodetection yields a `(base_model, full_model)` pair and
the flow records exactly the base model, full model, protocol, modbus slave
and host into the gathered inverter data, leaving every other part of the
flow state unchanged. -/
theorem autodetect_success_records_fields (st : FlowState) (protocol host : String)
    (slave : Int) (base_model full_model : String)
    (hdup : duplicateConnection st protocol host slave = false)
    (hok : protocolReachable protocol host) :
    autodetectModbusAndSaveToInverterData st protocol host slave
        (.success base_model full_model)
      = some ⟨{ st with inverter_data :=
          { st.inverter_data with
              inverter_base_model := some base_model
              inverter_model := some full_model
              inverter_protocol := some protocol
              modbus_slave := some slave
              host := some host } }, none, 1⟩ :=
  autodetect_eq_runDetect st protocol host slave (.success base_model full_model)
    hdup hok

/-- Witness for `autodetect_success_records_fields` on a fresh flow state. -/
theorem autodetect_success_records_fields_witness :
    duplicateConnection ⟨{}, []⟩ SERIAL "/dev/ttyUSB0" 247 = false ∧
    autodetectModbusAndSaveToInverterData ⟨{}, []⟩ SERIAL "/dev/ttyUSB0" 247
        (.success "H1" "H1-3.7")
      = some ⟨⟨{ inverter_base_model := some "H1", inverter_model := some "H1-3.7",
                 inverter_protocol := some SERIAL, modbus_slave := some 247,
                 host := some "/dev/ttyUSB0" }, []⟩, none, 1⟩ :=
  ⟨rfl, autodetect_success_records_fields ⟨{}, []⟩ SERIAL "/dev/ttyUSB0" 247
    "H1" "H1-3.7" rfl (Or.inl rfl)⟩

/-- C7: when autodetection raises a `ConnectionException`, the flow reports
the validation error `modbus_error` after a single autodetect call (no
flow-level retry, no crash), and the gathered inverter data is unchanged. -/
theorem autodetect_connection_error_surfaces (st : FlowState) (protocol host : String)
    (slave : Int)
    (hdup : duplicateConnection st protocol host slave = false)
    (hok : protocolReachable protocol host) :
    autodetectModbusAndSaveToInverterData st protocol host slave .connectionError
      = some ⟨st, some [("base", "modbus_error")], 1⟩ :=
  autodetect_eq_runDetect st protocol host slave .connectionError hdup hok

/-- Witness for `autodetect_connection_error_surfaces` on a fresh flow state
and a TCP connection. -/
theorem autodetect_connection_error_surfaces_witness :
    duplicateConnection ⟨{}, []⟩ TCP "192.168.1.5:502" 247 = false ∧
    autodetectModbusAndSaveToInverterData ⟨{}, []⟩ TCP "192.168.1.5:502" 247
        .connectionError
      = some ⟨⟨{}, []⟩, some [("base", "modbus_error")], 1⟩ :=
  ⟨rfl, autodetect_connection_error_surfaces ⟨{}, []⟩ TCP "192.168.1.5:502" 247 rfl
    (Or.inr ⟨Or.inl rfl, by decide⟩)⟩

/-- C9: if some already-gathered inverter has the same (protocol, host, slave)
triple, the call fails with the validation error `duplicate_connection_details`
with zero autodetect calls (so before any connection is attempted), and the
flow state — both the gathered list and the in-progress inverter data — is
unchanged. -/
theorem autodetect_duplicate_fails_early (st : FlowState) (protocol host : String)
    (slave : Int) (detect : AutodetectResult)
    (hdup : ∃ x ∈ st.all_inverters, x.inverter_protocol = some protocol ∧
      x.host = some host ∧ x.modbus_slave = some slave) :
    autodetectModbusAndSaveToInverterData st protocol host slave detect
      = some ⟨st, some [("base", "duplicate_connection_details")], 0⟩ := by
  have h : duplicateConnection st protocol host slave = true := by
    rcases hdup with ⟨x, hx, hprop⟩
    simp only [duplicateConnection, List.any_eq_true, decide_eq_true_eq]
    exact ⟨x, hx, hprop⟩
  simp [autodetectModbusAndSaveToInverterData, h]

/-- Witness for `autodetect_duplicate_fails_early`: one gathered serial
inverter, and a second attempt at the same device and slave. -/
theorem autodetect_duplicate_fails_early_witness :
    (∃ x ∈ [sampleGathered], x.inverter_protocol = some SERIAL ∧
      x.host = some "/dev/ttyUSB0" ∧ x.modbus_slave = some (247 : Int)) ∧
    autodetectModbusAndSaveToInverterData ⟨{}, [sampleGathered]⟩ SERIAL
        "/dev/ttyUSB0" 247 .unsupportedInverter
      = some ⟨⟨{}, [sampleGathered]⟩,
          some [("base", "duplicate_connection_details")], 0⟩ := by
  refine ⟨⟨_, List.mem_singleton_self _, rfl, rfl, rfl⟩, ?_⟩
  exact autodetect_duplicate_fails_early _ SERIAL "/dev/ttyUSB0" 247 .unsupportedInverter
    ⟨_, List.mem_singleton_self _, rfl, rfl, rfl⟩

/-! ### Association list lemmas -/

theorem assocLookup_nil {α β : Type} [DecidableEq α] (k : α) :
    assocLookup ([] : List (α × β)) k = none := rfl

theorem assocLookup_cons {α β : Type} [DecidableEq α] (k' : α) (v' : β)
    (tl : List (α × β)) (k : α) :
    assocLookup ((k', v') :: tl) k = if k' = k then some v' else assocLookup tl k :=
  rfl

theorem assocLookup_append_of_some {α β : Type} [DecidableEq α]
    {l1 : List (α × β)} (l2 : List (α × β)) {k : α} {v : β}
    (h : assocLookup l1 k = some v) : assocLookup (l1 ++ l2) k = some v := by
  induction l1 with
  | nil => rw [assocLookup_nil] at h; exact absurd h (by simp)
  | cons hd tl ih =>
      obtain ⟨k', v'⟩ := hd
      rw [assocLookup_cons] at h
      rw [List.cons_append, assocLookup_cons]
      by_cases hk : k' = k
      · rwa [if_pos hk] at h ⊢
      · rw [if_neg hk] at h ⊢
        exact ih h

theorem assocLookup_append_of_none {α β : Type} [DecidableEq α]
    {l1 : List (α × β)} (l2 : List (α × β)) {k : α}
    (h : assocLookup l1 k = none) : assocLookup (l1 ++ l2) k = assocLookup l2 k := by
  induction l1 with
  | nil => rfl
  | cons hd tl ih =>
      obtain ⟨k', v'⟩ := hd
      rw [assocLookup_cons] at h
      rw [List.cons_append, assocLookup_cons]
      by_cases hk : k' = k
      · rw [if_pos hk] at h; exact absurd h (by simp)
      · rw [if_neg hk] at h ⊢
        exact ih h

theorem not_mem_of_assocLookup_eq_none {α β : Type} [DecidableEq α]
    {l : List (α × β)} {k : α} (h : assocLookup l k = none) :
    k ∉ l.map Prod.fst := by
  induction l with
  | nil => simp
  | cons hd tl ih =>
      obtain ⟨k', v'⟩ := hd
      rw [assocLookup_cons] at h
      by_cases hk : k' = k
      · rw [if_pos hk] at h; exact absurd h (by simp)
      · rw [if_neg hk] at h
        simp only [List.map_cons, List.mem_cons]
        push_neg
        exact ⟨fun hc => hk hc.symm, ih h⟩

theorem mem_of_assocLookup_eq_some {α β : Type} [DecidableEq α]
    {l : List (α × β)} {k : α} {v : β} (h : assocLookup l k = some v) :
    (k, v) ∈ l := by
  induction l with
  | nil => rw [assocLookup_nil] at h; exact absurd h (by simp)
  | cons hd tl ih =>
      obtain ⟨k', v'⟩ := hd
      rw [assocLookup_cons] at h
      by_cases hk : k' = k
      · rw [if_pos hk] at h
        obtain rfl : v' = v := Option.some.inj h
        subst hk
        exact List.mem_cons_self _ _
      · rw [if_neg hk] at h
        exact List.mem_cons_of_mem _ (ih h)

theorem assocLookup_key_inj {α β : Type} [DecidableEq α]
    {l : List (α × β)} (hn : (l.map Prod.snd).Nodup) {k1 k2 : α} {v : β}
    (h1 : assocLookup l k1 = some v) (h2 : assocLookup l k2 = some v) :
    k1 = k2 := by
  have m1 := mem_of_assocLookup_eq_some h1
  have m2 := mem_of_assocLookup_eq_some h2
  have := List.inj_on_of_nodup_map hn m1 m2 rfl
  exact congrArg Prod.fst this

/-! ### Dictionary update lemmas -/

theorem setKey_cons (k0 : String) (v0 : Value) (tl : Dict) (k : String) (v : Value) :
    setKey ((k0, v0) :: tl) k v
      = if k0 = k then (k0, v) :: tl else (k0, v0) :: setKey tl k v := rfl

theorem getKey_setKey_ne (d : Dict) (k' : String) (v : Value) (k : String)
    (h : k ≠ k') : getKey (setKey d k' v) k = getKey d k := by
  induction d with
  | nil =>
      show assocLookup [(k', v)] k = none
      rw [assocLookup_cons, if_neg (fun hc => h hc.symm)]
      rfl
  | cons hd tl ih =>
      obtain ⟨k0, v0⟩ := hd
      rw [setKey_cons]
      by_cases hk : k0 = k'
      · rw [if_pos hk]
        show assocLookup _ k = assocLookup _ k
        rw [assocLookup_cons, assocLookup_cons, if_neg, if_neg]
        · exact fun hc => h (by rw [← hc]; exact hk)
        · exact fun hc => h (by rw [← hc]; exact hk)
      · rw [if_neg hk]
        show assocLookup _ k = assocLookup _ k
        rw [assocLookup_cons, assocLookup_cons]
        by_cases hk0 : k0 = k
        · rw [if_pos hk0, if_pos hk0]
        · rw [if_neg hk0, if_neg hk0]
          exact ih

theorem dictUpdate_cons (d : Dict) (kv : String × Value) (u : Dict) :
    dictUpdate d (kv :: u) = dictUpdate (setKey d kv.1 kv.2) u := rfl

theorem getKey_dictUpdate_of_not_mem (d : Dict) {u : Dict} {k : String}
    (h : k ∉ u.map Prod.fst) : getKey (dictUpdate d u) k = getKey d k := by
  induction u generalizing d with
  | nil => rfl
  | cons kv rest ih =>
      simp only [List.map_cons, List.mem_cons] at h
      push_neg at h
      rw [dictUpdate_cons, ih _ h.2, getKey_setKey_ne _ _ _ _ h.1]

/-- C5 counterexample: running entry setup on a stored inverter configuration
does mutate it — the configuration handed to the controller (the same object
as the stored one, updated in place by `inverter.update(...)`) differs from
the configuration read before setup. -/
theorem setup_mutates_inverter_config :
    (setupInverters adaptersT optionsT [("inverter1", invT)] initSetupState).map
        (fun st => st.controllers.map Prod.fst)
      = some [invT ++ [(MAX_READ, Value.n 8)]] ∧
    invT ++ [(MAX_READ, Value.n 8)] ≠ invT := by decide

/-- C5 amended: entry setup mutates the per-inverter configuration only by
merging in the adapter's `inverter_config()` and the entry's per-inverter
options; every key outside those two merges keeps the value it had before
setup. -/
theorem setup_merges_only (adapters : Value → Option Dict)
    (options : String → Option Dict) (iid : String) (inv : Dict) (av : Value)
    (acfg : Dict) (h1 : getKey inv ADAPTER_ID = some av)
    (h2 : adapters av = some acfg) :
    mergeInverterConfig adapters options iid inv
      = some (dictUpdate (dictUpdate inv acfg) ((options iid).getD [])) ∧
    ∀ k, k ∉ acfg.map Prod.fst → k ∉ ((options iid).getD []).map Prod.fst →
      getKey (dictUpdate (dictUpdate inv acfg) ((options iid).getD [])) k
        = getKey inv k := by
  constructor
  · simp only [mergeInverterConfig, h1, h2, Option.some_bind, Option.map_some]
    cases ho : options iid <;> simp [ho, dictUpdate]
  · intro k hk1 hk2
    rw [getKey_dictUpdate_of_not_mem _ hk2, getKey_dictUpdate_of_not_mem _ hk1]

/-- Witness for `setup_merges_only` on the concrete adapter catalog. -/
theorem setup_merges_only_witness :
    getKey invT ADAPTER_ID = some (Value.s "direct") ∧
    adaptersT (Value.s "direct") = some [(MAX_READ, Value.n 8)] ∧
    mergeInverterConfig adaptersT optionsT "inverter1" invT
      = some (dictUpdate (dictUpdate invT [(MAX_READ, Value.n 8)])
          ((optionsT "inverter1").getD [])) ∧
    getKey (dictUpdate (dictUpdate invT [(MAX_READ, Value.n 8)])
        ((optionsT "inverter1").getD [])) HOST = getKey invT HOST := by
  refine ⟨by decide, by decide, ?_, ?_⟩
  · exact (setup_merges_only adaptersT optionsT "inverter1" invT (Value.s "direct")
      [(MAX_READ, Value.n 8)] (by decide) (by decide)).1
  · exact (setup_merges_only adaptersT optionsT "inverter1" invT (Value.s "direct")
      [(MAX_READ, Value.n 8)] (by decide) (by decide)).2 HOST (by decide) (by decide)

/-! ### mkClientParams equations -/

theorem mkClientParams_serial (tv hv : Value)
    (h1 : ¬(tv = Value.s TCP ∨ tv = Value.s UDP)) :
    mkClientParams tv hv
      = some (dictUpdate [(MODBUS_TYPE, tv)]
          [("port", hv), ("baudrate", Value.n 9600)]) := by
  unfold mkClientParams
  rw [if_neg h1]

theorem mkClientParams_tcpudp (tv : Value) (host : String)
    (h1 : tv = Value.s TCP ∨ tv = Value.s UDP) :
    mkClientParams tv (Value.s host)
      = (parsePort host).map fun port =>
          dictUpdate [(MODBUS_TYPE, tv)]
            [("host", Value.s (hostHead host)), ("port", Value.n port)] := by
  unfold mkClientParams
  rw [if_pos h1]

theorem mkClientParams_tcpudp_int (tv : Value) (x : Int)
    (h1 : tv = Value.s TCP ∨ tv = Value.s UDP) :
    mkClientParams tv (Value.n x) = none := by
  unfold mkClientParams
  rw [if_pos h1]

theorem mkClientParams_tcpudp_bool (tv : Value) (x : Bool)
    (h1 : tv = Value.s TCP ∨ tv = Value.s UDP) :
    mkClientParams tv (Value.b x) = none := by
  unfold mkClientParams
  rw [if_pos h1]

/-- A constructed client's params carry the inverter's `MODBUS_TYPE` value. -/
theorem mkClientParams_getKey_modbus_type {tv hv : Value} {p : Dict}
    (h : mkClientParams tv hv = some p) : getKey p MODBUS_TYPE = some tv := by
  by_cases h1 : tv = Value.s TCP ∨ tv = Value.s UDP
  · cases hv with
    | s host =>
        rw [mkClientParams_tcpudp tv host h1] at h
        rcases hp : parsePort host with _ | port <;> rw [hp] at h
        · exact absurd h (by simp)
        · rw [Option.map_some'] at h
          obtain rfl := Option.some.inj h
          rfl
    | n x => rw [mkClientParams_tcpudp_int tv x h1] at h; exact absurd h (by simp)
    | b x => rw [mkClientParams_tcpudp_bool tv x h1] at h; exact absurd h (by simp)
  · rw [mkClientParams_serial tv hv h1] at h
    obtain rfl := Option.some.inj h
    rfl

/-- A client constructed in the serial branch gets the fixed `baudrate: 9600`. -/
theorem mkClientParams_baudrate_of_not_tcpudp {tv hv : Value} {p : Dict}
    (h : mkClientParams tv hv = some p)
    (h1 : tv ≠ Value.s TCP) (h2 : tv ≠ Value.s UDP) :
    getKey p "baudrate" = some (Value.n 9600) := by
  rw [mkClientParams_serial tv hv (by tauto)] at h
  obtain rfl := Option.some.inj h
  rfl

theorem initSetupInv : SetupInv initSetupState := by
  constructor <;> simp [initSetupState]

theorem setupInverter_inv {adapters : Value → Option Dict}
    {options : String → Option Dict} {st : SetupState} {iid : String} {inv : Dict}
    {st' : SetupState} (hinv : SetupInv st)
    (h : setupInverter adapters options st iid inv = some st') : SetupInv st' := by
  unfold setupInverter at h
  rcases hm : mergeInverterConfig adapters options iid inv with _ | merged <;>
    rw [hm] at h
  · exact absurd h (by simp)
  rw [Option.some_bind] at h
  rcases htv : getKey merged MODBUS_TYPE with _ | tv <;> rw [htv] at h
  · exact absurd h (by simp)
  rw [Option.some_bind] at h
  rcases hhv : getKey merged HOST with _ | hv <;> rw [hhv] at h
  · exact absurd h (by simp)
  rw [Option.some_bind] at h
  rcases hcl : assocLookup st.clients (tv, hv) with _ | cid <;> rw [hcl] at h
  · -- cache miss: a fresh client is constructed and cached
    rcases hmk : mkClientParams tv hv with _ | params <;> rw [hmk] at h
    · exact absurd h (by simp)
    rw [Option.map_some'] at h
    obtain rfl := Option.some.inj h
    have hkey : (tv, hv) ∉ st.clients.map Prod.fst :=
      not_mem_of_assocLookup_eq_none hcl
    constructor
    · rw [List.map_append]
      refine hinv.keysNodup.append (by simp) ?_
      intro x hx hy
      rw [List.map_cons, List.map_nil, List.mem_singleton] at hy
      subst hy
      exact hkey hx
    · rw [List.map_append]
      refine hinv.idsNodup.append (by simp) ?_
      intro x hx hy
      rw [List.map_cons, List.map_nil, List.mem_singleton] at hy
      subst hy
      obtain ⟨c, hc, hcx⟩ := List.mem_map.mp hx
      exact absurd (hcx ▸ hinv.idsLt c hc) (lt_irrefl _)
    · intro c hc
      rcases List.mem_append.mp hc with hc | hc
      · exact Nat.lt_succ_of_lt (hinv.idsLt c hc)
      · rw [List.mem_singleton] at hc
        subst hc
        exact Nat.lt_succ_self _
    · intro e he
      rcases List.mem_append.mp he with he | he
      · obtain ⟨tv', hv', h1, h2, h3⟩ := hinv.ctrl e he
        exact ⟨tv', hv', h1, h2, assocLookup_append_of_some _ h3⟩
      · rw [List.mem_singleton] at he
        subst he
        refine ⟨tv, hv, htv, hhv, ?_⟩
        rw [assocLookup_append_of_none _ hcl, assocLookup_cons, if_pos rfl]
    · intro p hp
      rcases List.mem_append.mp hp with hp | hp
      · exact hinv.cparams p hp
      · rw [List.mem_singleton] at hp
        subst hp
        exact ⟨tv, hv, hmk⟩
  · -- cache hit: the cached client is reused
    obtain rfl := Option.some.inj h
    refine ⟨hinv.keysNodup, hinv.idsNodup, hinv.idsLt, ?_, hinv.cparams⟩
    intro e he
    rcases List.mem_append.mp he with he | he
    · exact hinv.ctrl e he
    · rw [List.mem_singleton] at he
      subst he
      exact ⟨tv, hv, htv, hhv, hcl⟩

theorem setupInverters_inv {adapters : Value → Option Dict}
    {options : String → Option Dict} :
    ∀ (l : List (String × Dict)) (st st' : SetupState), SetupInv st →
      setupInverters adapters options l st = some st' → SetupInv st'
  | [], _, _, hinv, h => by
      obtain rfl := Option.some.inj h
      exact hinv
  | (iid, inv) :: rest, st, st', hinv, h => by
      unfold setupInverters at h
      rcases hs : setupInverter adapters options st iid inv with _ | st1 <;>
        rw [hs] at h
      · exact absurd h (by simp)
      rw [Option.some_bind] at h
      exact setupInverters_inv rest st1 st' (setupInverter_inv hinv hs) h

/-! ### C1: one client per (transport, host) pair -/

/-- C1: running entry setup constructs at most one `ModbusClient` per
`(MODBUS_TYPE, HOST)` pair (the cache holds no duplicate key), and two
configured inverters receive the same client instance exactly when their
merged configurations agree on both `MODBUS_TYPE` and `HOST`. -/
theorem setup_one_client_per_connection (adapters : Value → Option Dict)
    (options : String → Option Dict) (invs : List (String × Dict))
    (st' : SetupState)
    (h : setupInverters adapters options invs initSetupState = some st') :
    (st'.clients.map Prod.fst).Nodup ∧
    ∀ e1 ∈ st'.controllers, ∀ e2 ∈ st'.controllers,
      (e1.2 = e2.2 ↔
        (getKey e1.1 MODBUS_TYPE, getKey e1.1 HOST)
          = (getKey e2.1 MODBUS_TYPE, getKey e2.1 HOST)) := by
  have hinv := setupInverters_inv invs initSetupState st' initSetupInv h
  refine ⟨hinv.keysNodup, fun e1 he1 e2 he2 => ?_⟩
  obtain ⟨tv1, hv1, ht1, hh1, hl1⟩ := hinv.ctrl e1 he1
  obtain ⟨tv2, hv2, ht2, hh2, hl2⟩ := hinv.ctrl e2 he2
  rw [ht1, hh1, ht2, hh2]
  constructor
  · intro hid
    rw [hid] at hl1
    have hkey := assocLookup_key_inj hinv.idsNodup hl1 hl2
    injection hkey with hk1 hk2
    rw [hk1, hk2]
  · intro hk
    injection hk with hk1 hk2
    obtain rfl := Option.some.inj hk1
    obtain rfl := Option.some.inj hk2
    exact Option.some.inj (hl1.symm.trans hl2)

/-- Witness for `setup_one_client_per_connection`: two inverters with the
same transport and host share client `0`, and the cache has a single entry. -/
theorem setup_one_client_per_connection_witness :
    setupInverters adaptersT optionsT [("a", invT), ("b", invT)] initSetupState
      = some stC ∧
    (stC.clients.map Prod.fst).Nodup ∧
    (((mergedT, 0) : Dict × Nat).2 = ((mergedT, 0) : Dict × Nat).2 ↔
      (getKey mergedT MODBUS_TYPE, getKey mergedT HOST)
        = (getKey mergedT MODBUS_TYPE, getKey mergedT HOST)) := by
  have h : setupInverters adaptersT optionsT [("a", invT), ("b", invT)]
      initSetupState = some stC := by decide
  have hmain := setup_one_client_per_connection adaptersT optionsT
    [("a", invT), ("b", invT)] stC h
  exact ⟨h, hmain.1, hmain.2 (mergedT, 0) (by decide) (mergedT, 0) (by decide)⟩

/-- C6 counterexample: for a serial inverter whose configuration requests a
baud rate of 115200, the constructed Modbus client is given `baudrate: 9600`
— the baud rate is not taken from the inverter's configuration. -/
theorem serial_client_baudrate_ignores_config :
    (setupInverters adaptersT optionsT [("a", invBaud)] initSetupState).map
        (fun st => st.clientParams.map fun p => getKey p.2 "baudrate")
      = some [some (Value.n 9600)] ∧
    getKey invBaud "baudrate" = some (Value.n 115200) ∧
    Value.n 9600 ≠ Value.n 115200 := by decide

/-- C6 amended: every client constructed for a non-TCP, non-UDP (i.e.
serial-branch) inverter is constructed with the fixed baud rate 9600,
regardless of the inverter's configuration. -/
theorem serial_client_constructed_with_9600 (adapters : Value → Option Dict)
    (options : String → Option Dict) (invs : List (String × Dict))
    (st' : SetupState)
    (h : setupInverters adapters options invs initSetupState = some st') :
    ∀ p ∈ st'.clientParams, ∀ tv, getKey p.2 MODBUS_TYPE = some tv →
      tv ≠ Value.s TCP → tv ≠ Value.s UDP →
      getKey p.2 "baudrate" = some (Value.n 9600) := by
  have hinv := setupInverters_inv invs initSetupState st' initSetupInv h
  intro p hp tv hmt h1 h2
  obtain ⟨tv', hv', hmk⟩ := hinv.cparams p hp
  have hmt' := mkClientParams_getKey_modbus_type hmk
  rw [hmt] at hmt'
  obtain rfl := Option.some.inj hmt'
  exact mkClientParams_baudrate_of_not_tcpudp hmk h1 h2

/-- Witness for `serial_client_constructed_with_9600` on the concrete serial
inverter. -/
theorem serial_client_constructed_with_9600_witness :
    setupInverters adaptersT optionsT [("a", invBaud)] initSetupState = some stB ∧
    getKey paramsT "baudrate" = some (Value.n 9600) := by
  have h : setupInverters adaptersT optionsT [("a", invBaud)] initSetupState
      = some stB := by decide
  exact ⟨h, serial_client_constructed_with_9600 adaptersT optionsT
    [("a", invBaud)] stB h (0, paramsT) (by decide) (Value.s SERIAL) (by decide)
    (by decide) (by decide)⟩

theorem getKey_setKey_same (d : Dict) (k : String) (v : Value) :
    getKey (setKey d k v) k = some v := by
  induction d with
  | nil =>
      show assocLookup [(k, v)] k = some v
      rw [assocLookup_cons, if_pos rfl]
  | cons hd tl ih =>
      obtain ⟨k0, v0⟩ := hd
      rw [setKey_cons]
      by_cases hk : k0 = k
      · rw [if_pos hk]
        show assocLookup _ k = some v
        rw [assocLookup_cons, if_pos hk]
      · rw [if_neg hk]
        show assocLookup _ k = some v
        rw [assocLookup_cons, if_neg hk]
        exact ih

/-- C10: in `async_migrate_entry` an adapter is assigned only in the TCP and
SERIAL branches: (1) any other modbus type leaves the `adapter` local exactly
as it was; (2) a version-1 entry whose first migrated inverter (after any
skipped non-modbus entry keys) uses UDP crashes with an unbound-local error;
(3) a UDP inverter reached while `adapter` holds a previous inverter's
adapter silently receives that previous adapter as its `ADAPTER_ID`. -/
theorem migrate_adapter_branches :
    (∀ (adapter : Option String) (mt host fn : String) (inv : Dict)
        (r : Dict × Option String), mt ≠ TCP → mt ≠ SERIAL →
        migrateInverter adapter mt host fn inv = Except.ok r → r.2 = adapter) ∧
    (∀ (pre : List (String × String × String × Dict)) (host fn : String)
        (inv : Dict) (rest : List (String × String × String × Dict)),
        (∀ e ∈ pre, e.1 ≠ TCP ∧ e.1 ≠ UDP ∧ e.1 ≠ SERIAL) →
        migrateInverters none (pre ++ (UDP, host, fn, inv) :: rest)
          = Except.error MigrateError.unboundLocalAdapter) ∧
    (∀ (a host fn : String) (inv : Dict) (r : Dict × Option String),
        migrateInverter (some a) UDP host fn inv = Except.ok r →
        r.2 = some a ∧ getKey r.1 ADAPTER_ID = some (Value.s a)) := by
  have hbase : ∀ (host fn : String) (inv : Dict)
      (rest : List (String × String × String × Dict)),
      migrateInverters none ((UDP, host, fn, inv) :: rest)
        = Except.error MigrateError.unboundLocalAdapter := by
    intro host fn inv rest
    unfold migrateInverters
    rw [if_pos (Or.inr (Or.inl rfl))]
    have h : migrateInverter none UDP host fn inv
        = Except.error MigrateError.unboundLocalAdapter := by
      unfold migrateInverter
      rw [show migrateAdapterFor none UDP (migrateSetFields UDP host fn inv)
          = Except.ok none from by
        unfold migrateAdapterFor
        rw [if_neg (by decide), if_neg (by decide)]]
    rw [h]
  refine ⟨?_, ?_, ?_⟩
  · intro adapter mt host fn inv r h1 h2 h
    unfold migrateInverter at h
    rw [show migrateAdapterFor adapter mt (migrateSetFields mt host fn inv)
        = Except.ok adapter from by
      unfold migrateAdapterFor
      rw [if_neg h1, if_neg h2]] at h
    cases adapter with
    | none => exact Except.noConfusion h
    | some a =>
        obtain rfl := Except.ok.inj h
        rfl
  · intro pre host fn inv rest hpre
    induction pre with
    | nil => exact hbase host fn inv rest
    | cons e pre' ih =>
        obtain ⟨mt, h0, f0, i0⟩ := e
        obtain ⟨he1, he2, he3⟩ := hpre _ (List.mem_cons_self _ _)
        rw [List.cons_append]
        unfold migrateInverters
        rw [if_neg (by push_neg; exact ⟨he1, he2, he3⟩)]
        exact ih fun e he => hpre e (List.mem_cons_of_mem _ he)
  · intro a host fn inv r h
    unfold migrateInverter at h
    rw [show migrateAdapterFor (some a) UDP (migrateSetFields UDP host fn inv)
        = Except.ok (some a) from by
      unfold migrateAdapterFor
      rw [if_neg (by decide), if_neg (by decide)]] at h
    obtain rfl := Except.ok.inj h
    refine ⟨rfl, ?_⟩
    show getKey (migrateFinish UDP (migrateSetFields UDP host fn inv) a) ADAPTER_ID
      = some (Value.s a)
    unfold migrateFinish
    rw [if_neg (show (UDP : String) ≠ TCP from by decide)]
    rw [getKey_setKey_ne _ _ _ _ (by decide), getKey_setKey_same]

/-- Witness for `migrate_adapter_branches`: a UDP-first entry crashes; a UDP
inverter after a previous adapter assignment receives `"direct"`. -/
theorem migrate_adapter_branches_witness :
    migrateInverters none [(UDP, "192.168.1.5", "inv1", [])]
      = Except.error MigrateError.unboundLocalAdapter ∧
    migrateInverter (some "direct") UDP "192.168.1.5" "inv1" []
      = Except.ok ([(MODBUS_TYPE, Value.s UDP), (HOST, Value.s "192.168.1.5"),
          (FRIENDLY_NAME, Value.s "inv1"), (ADAPTER_ID, Value.s "direct"),
          (INVETER_ADAPTER_NEEDS_MANUAL_INPUT, Value.b true)], some "direct") ∧
    getKey [(MODBUS_TYPE, Value.s UDP), (HOST, Value.s "192.168.1.5"),
        (FRIENDLY_NAME, Value.s "inv1"), (ADAPTER_ID, Value.s "direct"),
        (INVETER_ADAPTER_NEEDS_MANUAL_INPUT, Value.b true)] ADAPTER_ID
      = some (Value.s "direct") := by
  refine ⟨?_, rfl, ?_⟩
  · exact migrate_adapter_branches.2.1 [] "192.168.1.5" "inv1" [] [] (by simp)
  · exact (migrate_adapter_branches.2.2 "direct" "192.168.1.5" "inv1" []
      ([(MODBUS_TYPE, Value.s UDP), (HOST, Value.s "192.168.1.5"),
        (FRIENDLY_NAME, Value.s "inv1"), (ADAPTER_ID, Value.s "direct"),
        (INVETER_ADAPTER_NEEDS_MANUAL_INPUT, Value.b true)], some "direct")
      rfl).2

/-- Counting helper: a list with a member satisfying `p`, on which `p` holds
for at most one position (pairwise incompatibility), has `countP p = 1`. -/
theorem countP_eq_one_of_mem_of_pairwise {α : Type} (p : α → Bool) (l : List α)
    (hex : ∃ x ∈ l, p x = true)
    (hp : List.Pairwise (fun x y => ¬(p x = true ∧ p y = true)) l) :
    l.countP p = 1 := by
  induction l with
  | nil =>
      obtain ⟨x, hx, _⟩ := hex
      exact absurd hx (List.not_mem_nil _)
  | cons y t ih =>
      rw [List.countP_cons]
      rcases List.pairwise_cons.mp hp with ⟨hy, ht⟩
      by_cases hpy : p y = true
      · have hzero : t.countP p = 0 := by
          rw [List.countP_eq_zero]
          intro b hb hpb
          exact hy b hb ⟨hpy, hpb⟩
        rw [hzero, hpy]
        simp
      · obtain ⟨x, hx, hpx⟩ := hex
        rcases List.mem_cons.mp hx with rfl | hx'
        · exact absurd hpx hpy
        · rw [ih ⟨x, hx', hpx⟩ ht, Bool.not_eq_true] at *
          rw [hpy]
          simp

/-- Structural lemma for `planAux`: given a well-formed range under
construction and a sorted pending list above it, the output ranges start at
or after `start`, have spans in `[1, maxSpan]`, are strictly sorted and
disjoint, cover all of `[start, stop]`, and cover every pending address. -/
theorem planAux_spec (gap maxSpan : Nat) (hms : 1 ≤ maxSpan) :
    ∀ (l : List Nat) (start stop : Nat), start ≤ stop →
      stop + 1 - start ≤ maxSpan →
      List.Pairwise (· < ·) (stop :: l) →
      (∀ r ∈ planAux gap maxSpan start stop l,
          start ≤ r.1 ∧ 1 ≤ r.2 ∧ r.2 ≤ maxSpan) ∧
      List.Pairwise (fun r1 r2 => r1.1 < r2.1 ∧ r1.1 + r1.2 ≤ r2.1)
        (planAux gap maxSpan start stop l) ∧
      (∀ x, start ≤ x → x ≤ stop →
        ∃ r ∈ planAux gap maxSpan start stop l, rangeCovers r x) ∧
      (∀ a ∈ l, ∃ r ∈ planAux gap maxSpan start stop l, rangeCovers r a) := by
  intro l
  induction l with
  | nil =>
      intro start stop hss hspan _
      simp only [planAux]
      refine ⟨?_, List.pairwise_singleton _ _, ?_, ?_⟩
      · intro r hr
        rw [List.mem_singleton] at hr
        subst hr
        exact ⟨le_refl _, by omega, by omega⟩
      · intro x hx1 hx2
        exact ⟨(start, stop - start + 1), List.mem_singleton_self _, hx1,
          show x < start + (stop - start + 1) by omega⟩
      · intro a ha
        exact absurd ha (List.not_mem_nil _)
  | cons a rest ih =>
      intro start stop hss hspan hpw
      have hsa : stop < a := (List.pairwise_cons.mp hpw).1 a (List.mem_cons_self _ _)
      have hpw' : List.Pairwise (· < ·) (a :: rest) := (List.pairwise_cons.mp hpw).2
      by_cases hc : a - stop ≤ gap ∧ a - start + 1 < maxSpan
      · have heq : planAux gap maxSpan start stop (a :: rest)
            = planAux gap maxSpan start a rest := by
          simp only [planAux, if_pos hc]
        have hcnd := hc
        obtain ⟨-, hc2⟩ := hcnd
        have ihres := ih start a (by omega) (by omega) hpw'
        rw [heq]
        refine ⟨ihres.1, ihres.2.1, ?_, ?_⟩
        · intro x hx1 hx2
          exact ihres.2.2.1 x hx1 (by omega)
        · intro b hb
          rcases List.mem_cons.mp hb with rfl | hb
          · exact ihres.2.2.1 b (by omega) (le_refl _)
          · exact ihres.2.2.2 b hb
      · have heq : planAux gap maxSpan start stop (a :: rest)
            = (start, stop - start + 1) :: planAux gap maxSpan a a rest := by
          simp only [planAux, if_neg hc]
        have ihres := ih a a (le_refl _) (by omega) hpw'
        rw [heq]
        refine ⟨?_, ?_, ?_, ?_⟩
        · intro r hr
          rcases List.mem_cons.mp hr with rfl | hr
          · exact ⟨le_refl _, by omega, by omega⟩
          · obtain ⟨h1, h2, h3⟩ := ihres.1 r hr
            exact ⟨by omega, h2, h3⟩
        · rw [List.pairwise_cons]
          refine ⟨?_, ihres.2.1⟩
          intro r hr
          obtain ⟨h1, -, -⟩ := ihres.1 r hr
          constructor
          · show start < r.1
            omega
          · show start + (stop - start + 1) ≤ r.1
            omega
        · intro x hx1 hx2
          exact ⟨(start, stop - start + 1), List.mem_cons_self _ _, hx1,
            show x < start + (stop - start + 1) by omega⟩
        · intro b hb
          rcases List.mem_cons.mp hb with rfl | hb
          · obtain ⟨r, hr, hcov⟩ := ihres.2.2.1 b (le_refl _) (le_refl _)
            exact ⟨r, List.mem_cons_of_mem _ hr, hcov⟩
          · obtain ⟨r, hr, hcov⟩ := ihres.2.2.2 b hb
            exact ⟨r, List.mem_cons_of_mem _ hr, hcov⟩

/-- C2: for every strictly sorted address set and positive max span, the
Range Planner's output ranges are strictly sorted by start address and
pairwise disjoint, every requested address is covered by exactly one range,
and every range's span lies in `[1, max_span]`. -/
theorem plan_spec (addresses : List Nat) (maxSpan gap : Nat)
    (hsorted : List.Pairwise (· < ·) addresses) (hms : 1 ≤ maxSpan) :
    List.Pairwise (fun r1 r2 => r1.1 < r2.1 ∧ r1.1 + r1.2 ≤ r2.1)
      (plan addresses maxSpan gap) ∧
    (∀ a ∈ addresses,
      (plan addresses maxSpan gap).countP (fun r => decide (rangeCovers r a)) = 1) ∧
    (∀ r ∈ plan addresses maxSpan gap, 1 ≤ r.2 ∧ r.2 ≤ maxSpan) := by
  cases addresses with
  | nil =>
      refine ⟨List.Pairwise.nil, ?_, ?_⟩ <;> intro x hx <;>
        exact absurd hx (List.not_mem_nil _)
  | cons a rest =>
      have hres := planAux_spec gap maxSpan hms rest a a (le_refl _) (by omega)
        hsorted
      have heq : plan (a :: rest) maxSpan gap = planAux gap maxSpan a a rest := rfl
      rw [heq]
      refine ⟨hres.2.1, ?_, fun r hr => (hres.1 r hr).2⟩
      intro b hb
      have hex : ∃ r ∈ planAux gap maxSpan a a rest,
          (fun r => decide (rangeCovers r b)) r = true := by
        have hex' : ∃ r ∈ planAux gap maxSpan a a rest, rangeCovers r b := by
          rcases List.mem_cons.mp hb with rfl | hb'
          · exact hres.2.2.1 b (le_refl _) (le_refl _)
          · exact hres.2.2.2 b hb'
        obtain ⟨r, hr, hcov⟩ := hex'
        exact ⟨r, hr, decide_eq_true hcov⟩
      have hinc : List.Pairwise
          (fun r1 r2 => ¬((fun r => decide (rangeCovers r b)) r1 = true ∧
            (fun r => decide (rangeCovers r b)) r2 = true))
          (planAux gap maxSpan a a rest) := by
        refine List.Pairwise.imp ?_ hres.2.1
        intro r1 r2 h12 hcc
        obtain ⟨hc1, hc2⟩ := hcc
        rw [decide_eq_true_eq] at hc1 hc2
        obtain ⟨h121, h122⟩ := h12
        obtain ⟨hb1, hb2⟩ := hc1
        obtain ⟨hb3, hb4⟩ := hc2
        omega
      exact countP_eq_one_of_mem_of_pairwise _ _ hex hinc

/-- Witness for `plan_spec` on the spec's own example: `max_span = 10`,
`gap = 2`, addresses `{0, 1, 2, 5, 20}` plan as `[(0,3), (5,1), (20,1)]`. -/
theorem plan_spec_witness :
    List.Pairwise (· < ·) [0, 1, 2, 5, 20] ∧ 1 ≤ 10 ∧
    (plan [0, 1, 2, 5, 20] 10 2).countP (fun r => decide (rangeCovers r 5)) = 1 ∧
    plan [0, 1, 2, 5, 20] 10 2 = [(0, 3), (5, 1), (20, 1)] := by
  have h := plan_spec [0, 1, 2, 5, 20] 10 2 (by decide) (by decide)
  exact ⟨by decide, by decide, h.2.1 5 (by decide), by decide⟩

end FoxessModbus
